import Mathlib

/-!
# Verification of `astrorapid` prediction remapping (`astrorapid/classify.py`)

Shallow embedding of `Classify.__init__` and `Classify.get_predictions` from
`astrorapid/classify.py`.  Floats are modelled by `ℚ`; possibly-NaN float
entries (the `time` columns of the original light curves, which the code
filters with `~np.isnan`) are modelled by `Option ℚ` with `none` standing for
NaN.  Numpy arrays are modelled by lists; `arr[:k]` is `List.take k`,
`arr[i]` is `List.getD i _` (the default is never reached under the
hypotheses of the theorems below).
-/

namespace Astrorapid

/-- `CLASS_NAMES` from `classify.py`. -/
def CLASS_NAMES : List String :=
  ["Pre-explosion", "SNIa-norm", "SNIbc", "SNII", "SNIa-91bg", "SNIa-x",
   "point-Ia", "Kilonova", "SLSN-I", "PISN", "ILOT", "CART", "TDE"]

/-- Helper for `npArgmax`: scan the remaining list, keeping the index of the
first occurrence of the running maximum (numpy `argmax` returns the first
index attaining the maximum). `i` is the index of the next element, `best`
the current best index, `bv` the current best value. -/
def npArgmaxAux : List ℚ → ℕ → ℕ → ℚ → ℕ
  | [], _, best, _ => best
  | x :: xs, i, best, bv =>
      if bv < x then npArgmaxAux xs (i + 1) i x
      else npArgmaxAux xs (i + 1) best bv

/-- Model of `np.argmax` on a 1-D array: index of the first occurrence of the
maximum (`0` on the empty list, on which numpy raises instead). -/
def npArgmax : List ℚ → ℕ
  | [] => 0
  | x :: xs => npArgmaxAux xs 1 0 x

/-- Model of `np.sort` on a 1-D array of rationals. -/
def npSort (l : List ℚ) : List ℚ := List.insertionSort (· ≤ ·) l

/-- Model of `np.interp x xp fp` for the documented domain of `np.interp`
(non-decreasing `xp`, `fp` of the same length): clamp to `fp.head` below
`xp.head`, clamp to `fp.getLast` above `xp.getLast`, linear interpolation on
interior intervals. -/
def npInterp (x : ℚ) : List ℚ → List ℚ → ℚ
  | [], _ => 0
  | _, [] => 0
  | [_], y0 :: _ => y0
  | _ :: _ :: _, [y0] => y0
  | x0 :: x1 :: xs, y0 :: y1 :: ys =>
      if x ≤ x0 then y0
      else if x ≤ x1 then y0 + (y1 - y0) * (x - x0) / (x1 - x0)
      else npInterp x (x1 :: xs) (y1 :: ys)

/-- One object's original light curve, as used by `get_predictions`: an
association list from passband name to the `time` column of the per-passband
DataFrame (`self.orig_lc[idx][pb]['time'].values`); `none` models a NaN
entry. -/
def OrigLC := List (String × List (Option ℚ))

/-- Lines 148–153 of `classify.py`: collect the `time` columns of the
passbands present in the object's light curve (`if pb in self.orig_lc[idx]`),
flatten in passband order (`np.array` + boolean-mask row-major flattening),
drop NaNs (`obs_time[~np.isnan(obs_time)]`), and sort (`np.sort`). -/
def gatherObsTimes (passbands : List String) (lc : OrigLC) : List ℚ :=
  npSort (((passbands.filterMap (fun pb => lc.lookup pb)).flatten).filterMap id)

/-- Model of `np.array(rows).T` for a rectangular list `rows` whose entries
all have length `n`: the transposed matrix, row `t` collecting entry `t` of
each input row. -/
def transposeRect (rows : List (List ℚ)) (n : ℕ) : List (List ℚ) :=
  (List.range n).map (fun t => rows.map (fun a => a.getD t 0))

/-- Lines 148–158 of `classify.py`, the body of the per-object loop in
observation-native mode: gather the object's observation times, interpolate
each class's truncated grid-probability column
(`self.y_predict[idx][:, classnum][:argmax[idx]]`) onto them over the
truncated grid (`self.timesX[idx][:argmax[idx]]`), transpose, and shift the
time axis by the trigger epoch (`obs_time + self.trigger_mjds[idx]`). -/
def obsNativeForObject (passbands : List String) (lc : OrigLC)
    (grid : List ℚ) (y : List (List ℚ)) (h : ℕ) (trig : ℚ) :
    List (List ℚ) × List ℚ :=
  let obs_time := gatherObsTimes passbands lc
  let xp := grid.take h
  let arrs := (List.range CLASS_NAMES.length).map
    (fun c => obs_time.map
      (fun t => npInterp t xp ((y.map (fun row => row.getD c 0)).take h)))
  (transposeRect arrs obs_time.length, obs_time.map (fun t => t + trig))

/-- The per-batch state `get_predictions` reads after
`self.process_light_curves()` has filled `self.X`, `self.orig_lc`,
`self.timesX`, `self.objids` and `self.trigger_mjds` (parallel, indexed by
surviving object). -/
structure PreparedData where
  X : List (List (List ℚ))
  orig_lc : List OrigLC
  timesX : List (List ℚ)
  objids : List ℕ
  trigger_mjds : List ℚ

/-- `Classify.get_predictions` (lines 128–163 of `classify.py`), starting
from the prepared per-batch state; `model` is the opaque
`self.model.predict`.  Returns `none` for the Python `return None, None`
taken when `len(self.objids) == 0`; otherwise `(y_predict, time_steps)`. -/
def getPredictions (passbands : List String)
    (model : List (List (List ℚ)) → List (List (List ℚ)))
    (d : PreparedData) (return_predictions_at_obstime : Bool) :
    Option (List (List (List ℚ)) × List (List ℚ)) :=
  let nobjects := d.objids.length
  if nobjects = 0 then none
  else
    let y_predict := model d.X
    let argmax := d.timesX.map (fun t => npArgmax t + 1)
    if return_predictions_at_obstime then
      let s := y_predict.length
      let pairs := (List.range s).map (fun idx =>
        obsNativeForObject passbands (d.orig_lc.getD idx [])
          (d.timesX.getD idx []) (y_predict.getD idx [])
          (argmax.getD idx 0) (d.trigger_mjds.getD idx 0))
      some (pairs.map Prod.fst, pairs.map Prod.snd)
    else
      some ((List.range nobjects).map
              (fun i => (y_predict.getD i []).take (argmax.getD i 0)),
            (List.range nobjects).map
              (fun i => ((d.timesX.getD i []).take (argmax.getD i 0)).map
                (fun t => t + d.trigger_mjds.getD i 0)))

/-! ## Basic lemmas about `npArgmax` -/

theorem npArgmaxAux_lt (xs : List ℚ) (i best : ℕ) (bv : ℚ)
    (hb : best < i) : npArgmaxAux xs i best bv < i + xs.length := by
  induction xs generalizing i best bv with
  | nil => simpa [npArgmaxAux] using hb
  | cons x xs ih =>
      simp only [npArgmaxAux, List.length_cons]
      by_cases hlt : bv < x
      · simp only [hlt, if_true]
        have := ih (i + 1) i x (Nat.lt_succ_self i)
        omega
      · simp only [hlt, if_false]
        have := ih (i + 1) best bv (Nat.lt_succ_of_lt hb)
        omega

theorem npArgmax_lt_length (l : List ℚ) (hl : l ≠ []) :
    npArgmax l < l.length := by
  cases l with
  | nil => exact absurd rfl hl
  | cons x xs =>
      have h := npArgmaxAux_lt xs 1 0 x Nat.zero_lt_one
      simp only [npArgmax, List.length_cons]
      omega

/-! ## List indexing helpers -/

theorem getD_range_map {α : Type} (f : ℕ → α) (n i : ℕ) (d : α) (h : i < n) :
    ((List.range n).map f).getD i d = f i := by
  simp [List.getD_eq_getElem?_getD, List.getElem?_map, List.getElem?_range, h]

theorem getD_map_of_lt {α β : Type} (f : α → β) (l : List α) (i : ℕ)
    (h : i < l.length) (d : α) (d' : β) :
    (l.map f).getD i d' = f (l.getD i d) := by
  simp [List.getD_eq_getElem?_getD, List.getElem?_map,
    List.getElem?_eq_getElem, h]

theorem lt_length_of_getD_length_pos {α : Type} (l : List (List α)) (i : ℕ)
    (h : 0 < (l.getD i []).length) : i < l.length := by
  by_contra hc
  rw [List.getD_eq_default _ _ (Nat.le_of_not_lt hc)] at h
  simp at h

/-! ## Mode-wise unfoldings of `getPredictions` -/

theorem getPredictions_grid_eq (passbands : List String)
    (model : List (List (List ℚ)) → List (List (List ℚ)))
    (d : PreparedData) (hne : ¬ d.objids.length = 0) :
    getPredictions passbands model d false =
      some ((List.range d.objids.length).map
              (fun i => ((model d.X).getD i []).take
                ((d.timesX.map (fun t => npArgmax t + 1)).getD i 0)),
            (List.range d.objids.length).map
              (fun i => (((d.timesX.getD i []).take
                  ((d.timesX.map (fun t => npArgmax t + 1)).getD i 0)).map
                (fun t => t + d.trigger_mjds.getD i 0)))) := by
  simp [getPredictions, hne]

theorem getPredictions_obs_eq (passbands : List String)
    (model : List (List (List ℚ)) → List (List (List ℚ)))
    (d : PreparedData) (hne : ¬ d.objids.length = 0) :
    getPredictions passbands model d true =
      some (((List.range (model d.X).length).map (fun idx =>
          obsNativeForObject passbands (d.orig_lc.getD idx [])
            (d.timesX.getD idx []) ((model d.X).getD idx [])
            ((d.timesX.map (fun t => npArgmax t + 1)).getD idx 0)
            (d.trigger_mjds.getD idx 0))).map Prod.fst,
        ((List.range (model d.X).length).map (fun idx =>
          obsNativeForObject passbands (d.orig_lc.getD idx [])
            (d.timesX.getD idx []) ((model d.X).getD idx [])
            ((d.timesX.map (fun t => npArgmax t + 1)).getD idx 0)
            (d.trigger_mjds.getD idx 0))).map Prod.snd) := by
  simp [getPredictions, hne]

/-! ## Concrete example data (used by witnesses) -/

/-- A 50-point non-decreasing time grid `0, 1, …, 49`. -/
def exGrid50 : List ℚ := (List.range 50).map (fun n => (n : ℚ))

/-- A model stub returning one object with 50 timesteps of 13 zero entries. -/
def exModel50 : List (List (List ℚ)) → List (List (List ℚ)) :=
  fun _ => [List.replicate 50 (List.replicate 13 (0 : ℚ))]

/-- A one-object prepared batch over `exGrid50`. -/
def exData1 : PreparedData :=
  { X := [[[]]]
    orig_lc := [[("g", [some 0, some 1]), ("r", [some 1, some 5])]]
    timesX := [exGrid50]
    objids := [7]
    trigger_mjds := [100] }

/-- A one-object prepared batch whose object has only the `g` passband. -/
def exDataC9 : PreparedData :=
  { X := [[[]]]
    orig_lc := [[("g", [some 0, some 2])]]
    timesX := [exGrid50]
    objids := [9]
    trigger_mjds := [50] }

/-- **C1**: for an object whose per-object time grid has 50 entries, the
causal horizon computed by `get_predictions` is `argmax(time_grid) + 1`; it
is at least 1 and at most 50, and in grid-native mode the returned
probability curve (and its time axis) for that object has length exactly the
causal horizon. -/
theorem C1_causal_horizon (passbands : List String)
    (model : List (List (List ℚ)) → List (List (List ℚ)))
    (d : PreparedData) (i : ℕ)
    (hi : i < d.objids.length)
    (hg : (d.timesX.getD i []).length = 50)
    (hy : ((model d.X).getD i []).length = 50) :
    ∃ yp ts, getPredictions passbands model d false = some (yp, ts) ∧
      (yp.getD i []).length = npArgmax (d.timesX.getD i []) + 1 ∧
      (ts.getD i []).length = npArgmax (d.timesX.getD i []) + 1 ∧
      1 ≤ npArgmax (d.timesX.getD i []) + 1 ∧
      npArgmax (d.timesX.getD i []) + 1 ≤ 50 := by
  have hne : ¬ d.objids.length = 0 := by omega
  have htl : i < d.timesX.length :=
    lt_length_of_getD_length_pos _ _ (by omega)
  have hgne : d.timesX.getD i [] ≠ [] := by
    intro h; rw [h] at hg; simp at hg
  have hlt := npArgmax_lt_length _ hgne
  rw [hg] at hlt
  refine ⟨_, _, getPredictions_grid_eq passbands model d hne, ?_, ?_, ?_, ?_⟩
  · rw [getD_range_map _ _ _ _ hi, getD_map_of_lt _ _ _ htl [] 0,
      List.length_take, hy]
    omega
  · rw [getD_range_map _ _ _ _ hi, getD_map_of_lt _ _ _ htl [] 0,
      List.length_map, List.length_take, hg]
    omega
  · omega
  · omega

/-- Witness for `C1_causal_horizon` at a concrete one-object batch. -/
theorem C1_witness :
    ∃ yp ts, getPredictions ["g", "r"] exModel50 exData1 false =
        some (yp, ts) ∧
      (yp.getD 0 []).length = npArgmax (exData1.timesX.getD 0 []) + 1 ∧
      (ts.getD 0 []).length = npArgmax (exData1.timesX.getD 0 []) + 1 ∧
      1 ≤ npArgmax (exData1.timesX.getD 0 []) + 1 ∧
      npArgmax (exData1.timesX.getD 0 []) + 1 ≤ 50 :=
  C1_causal_horizon ["g", "r"] exModel50 exData1 0 (by decide)
    (by decide) (by decide)

/-- **C2**: in grid-native mode the probability curve of object `i` is the
model output truncated to the first `causal_horizon` timesteps (so no
timestep past the causal horizon appears), and the parallel time axis is the
equally truncated relative-time grid shifted by the object's trigger
epoch. -/
theorem C2_grid_native_truncation (passbands : List String)
    (model : List (List (List ℚ)) → List (List (List ℚ)))
    (d : PreparedData) (i : ℕ)
    (hi : i < d.objids.length)
    (hgne : d.timesX.getD i [] ≠ []) :
    ∃ yp ts, getPredictions passbands model d false = some (yp, ts) ∧
      yp.getD i [] =
        ((model d.X).getD i []).take (npArgmax (d.timesX.getD i []) + 1) ∧
      ts.getD i [] =
        ((d.timesX.getD i []).take (npArgmax (d.timesX.getD i []) + 1)).map
          (fun t => t + d.trigger_mjds.getD i 0) := by
  have hne : ¬ d.objids.length = 0 := by omega
  have htl : i < d.timesX.length := by
    refine lt_length_of_getD_length_pos _ _ ?_
    cases hh : d.timesX.getD i [] with
    | nil => exact absurd hh hgne
    | cons a l => simp
  refine ⟨_, _, getPredictions_grid_eq passbands model d hne, ?_, ?_⟩
  · rw [getD_range_map _ _ _ _ hi, getD_map_of_lt _ _ _ htl [] 0]
  · rw [getD_range_map _ _ _ _ hi, getD_map_of_lt _ _ _ htl [] 0]

/-- Witness for `C2_grid_native_truncation` at a concrete one-object
batch. -/
theorem C2_witness :
    ∃ yp ts, getPredictions ["g", "r"] exModel50 exData1 false =
        some (yp, ts) ∧
      yp.getD 0 [] =
        ((exModel50 exData1.X).getD 0 []).take
          (npArgmax (exData1.timesX.getD 0 []) + 1) ∧
      ts.getD 0 [] =
        ((exData1.timesX.getD 0 []).take
            (npArgmax (exData1.timesX.getD 0 []) + 1)).map
          (fun t => t + exData1.trigger_mjds.getD 0 0) :=
  C2_grid_native_truncation ["g", "r"] exModel50 exData1 0 (by decide)
    (by decide)

/-! ## Empty batch (lines 129–133) -/

/-- An empty prepared batch: every surviving-object list is empty. -/
def exEmptyData : PreparedData :=
  { X := [], orig_lc := [], timesX := [], objids := [], trigger_mjds := [] }

/-- **C6**: when the surviving object-id list is empty, `get_predictions`
returns the explicit absent signal (`None, None`, modelled `none`) rather
than raising or returning malformed tensors, and the opaque model is never
invoked: the result does not depend on the model at all. -/
theorem C6_empty_batch (passbands : List String)
    (model1 model2 : List (List (List ℚ)) → List (List (List ℚ)))
    (d : PreparedData) (b : Bool) (h : d.objids = []) :
    getPredictions passbands model1 d b = none ∧
    getPredictions passbands model1 d b = getPredictions passbands model2 d b := by
  simp [getPredictions, h]

/-- Witness for `C6_empty_batch` on a concrete empty batch and two distinct
model stubs. -/
theorem C6_witness :
    getPredictions ["g"] exModel50 exEmptyData true = none ∧
    getPredictions ["g"] exModel50 exEmptyData true =
      getPredictions ["g"] (fun X => X) exEmptyData true :=
  C6_empty_batch ["g"] exModel50 (fun X => X) exEmptyData true rfl

/-! ## `Classify.__init__` (lines 78–91): redshift flag, features, model file -/

/-- Lines 78–83: the contextual-feature index tuple chosen from the
known-redshift flag (`(0,)` selects the redshift feature, `()` none). -/
def contextual_info (known_redshift : Bool) : List ℕ :=
  if known_redshift then [0] else []

/-- Lines 78–83: the default model filename chosen from the known-redshift
flag. -/
def defaultModelFilename (known_redshift : Bool) : String :=
  if known_redshift then "keras_model_with_redshift.hdf5"
  else "keras_model_no_redshift.hdf5"

/-- Model of `os.path.join(dir, file)` for a non-empty relative file name. -/
def pathJoin (dir file : String) : String := dir ++ "/" ++ file

/-- Lines 85–91: model-file selection. `ex` models `os.path.exists`;
`resourceFallback` models
`resource_filename(__name__, 'keras_model_with_redshift.hdf5')`. -/
def selectModelFilepath (ex : String → Bool)
    (model_filepath scriptDir resourceFallback : String)
    (known_redshift : Bool) : String :=
  if model_filepath ≠ "" ∧ ex model_filepath = true then model_filepath
  else
    let p := pathJoin scriptDir (defaultModelFilename known_redshift)
    if ex p = false then resourceFallback else p

/-- **C7 (amended)**: the known-redshift flag, fixed at construction,
determines the contextual feature set (`(0,)`, exactly the redshift feature,
vs `()`); in the default configuration — empty `model_filepath` and the
packaged model files present — it also fully determines which of the two
distinct model files is selected, and the two variants are mutually
exclusive.  (Outside the default configuration the file selection can
disagree with the flag: see the accompanying counterexample.) -/
theorem C7_redshift_variant (ex : String → Bool)
    (scriptDir resourceFallback : String)
    (hw : ex (pathJoin scriptDir "keras_model_with_redshift.hdf5") = true)
    (hn : ex (pathJoin scriptDir "keras_model_no_redshift.hdf5") = true) :
    contextual_info true = [0] ∧ contextual_info false = [] ∧
    selectModelFilepath ex "" scriptDir resourceFallback true =
      pathJoin scriptDir (defaultModelFilename true) ∧
    selectModelFilepath ex "" scriptDir resourceFallback false =
      pathJoin scriptDir (defaultModelFilename false) ∧
    defaultModelFilename true ≠ defaultModelFilename false := by
  refine ⟨rfl, rfl, ?_, ?_, by decide⟩
  · simp [selectModelFilepath, defaultModelFilename] at hw ⊢
    simp [hw]
  · simp [selectModelFilepath, defaultModelFilename] at hn ⊢
    simp [hn]

/-- Witness for `C7_redshift_variant` with an existence oracle that reports
every path present. -/
theorem C7_witness :
    contextual_info true = [0] ∧ contextual_info false = [] ∧
    selectModelFilepath (fun _ => true) "" "/pkg" "/res" true =
      pathJoin "/pkg" (defaultModelFilename true) ∧
    selectModelFilepath (fun _ => true) "" "/pkg" "/res" false =
      pathJoin "/pkg" (defaultModelFilename false) ∧
    defaultModelFilename true ≠ defaultModelFilename false :=
  C7_redshift_variant (fun _ => true) "/pkg" "/res" rfl rfl

/-- **C7 (counterexample)**: the known-redshift flag does not fully
determine the model file in every reachable configuration, and the two
variants are not always mutually exclusive.  With an existing user-supplied
`model_filepath` (lines 85–87), the same user file is selected for both
flag values, so with the flag off the no-redshift file is not selected; and
when the flag-selected packaged file is missing (lines 90–91),
`known_redshift=False` selects the with-redshift resource fallback instead
of the no-redshift file. -/
theorem C7_counterexample :
    selectModelFilepath (fun p => p == "custom.hdf5") "custom.hdf5" "/pkg"
        "/res" true = "custom.hdf5" ∧
    selectModelFilepath (fun p => p == "custom.hdf5") "custom.hdf5" "/pkg"
        "/res" false = "custom.hdf5" ∧
    "custom.hdf5" ≠ pathJoin "/pkg" (defaultModelFilename false) ∧
    selectModelFilepath (fun _ => false) "" "/pkg" "/res" false = "/res" ∧
    "/res" ≠ pathJoin "/pkg" (defaultModelFilename false) := by
  refine ⟨by decide, by decide, by decide, by decide, by decide⟩

/-! ## Determinism of repeated invocations -/

/-- The attributes of a `Classify` instance that `get_predictions` reads and
writes: the configured passbands, the (deterministic) result of
`self.process_light_curves()` on the stored light curves, and the cached
`self.X` / `self.y_predict` attributes set by previous invocations. -/
structure ClassifyState where
  passbands : List String
  prepared : PreparedData
  cacheX : Option (List (List (List ℚ)))
  cacheY : Option (List (List (List ℚ)))

/-- One invocation of `get_predictions` on a `Classify` instance: the
prepared arrays are recomputed (line 128 reassigns `self.X`, …), the model
output is cached in `self.y_predict` when the batch is non-empty, and the
result of lines 131–163 is returned alongside the mutated state. -/
def getPredictionsStep (model : List (List (List ℚ)) → List (List (List ℚ)))
    (st : ClassifyState) (b : Bool) :
    ClassifyState × Option (List (List (List ℚ)) × List (List ℚ)) :=
  let d := st.prepared
  if d.objids.length = 0 then
    ({ st with cacheX := some d.X }, none)
  else
    ({ st with cacheX := some d.X, cacheY := some (model d.X) },
     getPredictions st.passbands model d b)

/-- **C10**: `get_predictions` is deterministic: for a fixed `Classify`
state and a deterministic model function, a second invocation with the same
`return_predictions_at_obstime` argument returns the same probability-curve
and time-axis sequences as the first (the attribute mutations of the first
call do not affect the second). -/
theorem C10_deterministic
    (model : List (List (List ℚ)) → List (List (List ℚ)))
    (st : ClassifyState) (b : Bool) :
    (getPredictionsStep model (getPredictionsStep model st b).1 b).2 =
      (getPredictionsStep model st b).2 := by
  by_cases h : st.prepared.objids.length = 0 <;>
    simp [getPredictionsStep, h]

/-! ## Parallel-output invariant -/

/-- **C8**: for a non-empty surviving batch, in both modes, the two returned
sequences are parallel: both have one entry per surviving object, and for
every object the time-axis length equals the first dimension of that
object's probability-curve array. -/
theorem C8_parallel_outputs (passbands : List String)
    (model : List (List (List ℚ)) → List (List (List ℚ)))
    (d : PreparedData) (b : Bool)
    (hne : d.objids ≠ [])
    (hs : (model d.X).length = d.objids.length)
    (hrows : ∀ i < d.objids.length,
      ((model d.X).getD i []).length = (d.timesX.getD i []).length) :
    ∃ yp ts, getPredictions passbands model d b = some (yp, ts) ∧
      yp.length = d.objids.length ∧ ts.length = d.objids.length ∧
      ∀ i < d.objids.length,
        (yp.getD i []).length = (ts.getD i []).length := by
  have hne' : ¬ d.objids.length = 0 := by
    simpa [List.length_eq_zero] using hne
  cases b with
  | false =>
      refine ⟨_, _, getPredictions_grid_eq passbands model d hne', ?_, ?_, ?_⟩
      · simp
      · simp
      · intro i hi
        rw [getD_range_map _ _ _ _ hi, getD_range_map _ _ _ _ hi,
          List.length_map, List.length_take, List.length_take, hrows i hi]
  | true =>
      refine ⟨_, _, getPredictions_obs_eq passbands model d hne', ?_, ?_, ?_⟩
      · simp [hs]
      · simp [hs]
      · intro i hi
        have hi' : i < (model d.X).length := by omega
        rw [List.map_map, List.map_map, getD_range_map _ _ _ _ hi',
          getD_range_map _ _ _ _ hi']
        simp [obsNativeForObject, transposeRect]

/-- Witness for `C8_parallel_outputs` in observation-native mode on a
concrete one-object batch. -/
theorem C8_witness :
    ∃ yp ts, getPredictions ["g", "r"] exModel50 exData1 true =
        some (yp, ts) ∧
      yp.length = exData1.objids.length ∧
      ts.length = exData1.objids.length ∧
      ∀ i < exData1.objids.length,
        (yp.getD i []).length = (ts.getD i []).length :=
  C8_parallel_outputs ["g", "r"] exModel50 exData1 true (by decide)
    (by decide) (by decide)

/-! ## Missing passbands contribute nothing (lines 148–153) -/

theorem filterMap_eq_filterMap_filter_isSome {α β : Type}
    (f : α → Option β) (l : List α) :
    l.filterMap f = (l.filter (fun a => (f a).isSome)).filterMap f := by
  induction l with
  | nil => simp
  | cons a l ih =>
      cases hfa : f a with
      | none => simp [List.filterMap_cons, List.filter_cons, hfa, ih]
      | some b => simp [List.filterMap_cons, List.filter_cons, hfa, ← ih]

/-- The observation times gathered for an object are exactly those of the
passbands present in its light curve: absent passbands are skipped by the
membership check and contribute no times. -/
theorem gatherObsTimes_eq_filter_present (passbands : List String)
    (lc : OrigLC) :
    gatherObsTimes passbands lc =
      gatherObsTimes
        (passbands.filter (fun pb => (lc.lookup pb).isSome)) lc := by
  unfold gatherObsTimes
  rw [filterMap_eq_filterMap_filter_isSome (fun pb => lc.lookup pb) passbands]

/-- **C9**: when a configured passband is absent from an object's light
curve, `get_predictions` in observation-native mode still succeeds; the
absent passband is not among the passbands used, and the object's time axis
is built from the present passbands' times only. -/
theorem C9_missing_passband (passbands : List String)
    (model : List (List (List ℚ)) → List (List (List ℚ)))
    (d : PreparedData) (i : ℕ) (p : String)
    (hi : i < d.objids.length) (hs : i < (model d.X).length)
    (hp : p ∈ passbands)
    (habs : (d.orig_lc.getD i []).lookup p = none) :
    ∃ yp ts, getPredictions passbands model d true = some (yp, ts) ∧
      ts.getD i [] =
        (gatherObsTimes
            (passbands.filter
              (fun pb => ((d.orig_lc.getD i []).lookup pb).isSome))
            (d.orig_lc.getD i [])).map
          (fun t => t + d.trigger_mjds.getD i 0) ∧
      p ∉ passbands.filter
            (fun pb => ((d.orig_lc.getD i []).lookup pb).isSome) := by
  have hne' : ¬ d.objids.length = 0 := by omega
  refine ⟨_, _, getPredictions_obs_eq passbands model d hne', ?_, ?_⟩
  · rw [List.map_map, getD_range_map _ _ _ _ hs]
    simp only [Function.comp, obsNativeForObject]
    rw [gatherObsTimes_eq_filter_present]
  · intro hmem
    rw [List.mem_filter] at hmem
    rw [habs] at hmem
    simp at hmem

/-- Witness for `C9_missing_passband`: a batch whose only object lacks the
`r` passband entirely. -/
theorem C9_witness :
    ∃ yp ts, getPredictions ["g", "r"] exModel50 exDataC9 true =
        some (yp, ts) ∧
      ts.getD 0 [] =
        (gatherObsTimes
            (["g", "r"].filter
              (fun pb => ((exDataC9.orig_lc.getD 0 []).lookup pb).isSome))
            (exDataC9.orig_lc.getD 0 [])).map
          (fun t => t + exDataC9.trigger_mjds.getD 0 0) ∧
      "r" ∉ ["g", "r"].filter
            (fun pb => ((exDataC9.orig_lc.getD 0 []).lookup pb).isSome) :=
  C9_missing_passband ["g", "r"] exModel50 exDataC9 0 "r" (by decide)
    (by decide) (by decide) (by decide)

/-! ## Arithmetic helpers for sums over class indices -/

theorem list_sum_map_add {α : Type} (l : List α) (f g : α → ℚ) :
    (l.map (fun c => f c + g c)).sum = (l.map f).sum + (l.map g).sum := by
  induction l with
  | nil => simp
  | cons a l ih => simp only [List.map_cons, List.sum_cons, ih]; ring

theorem list_sum_map_sub {α : Type} (l : List α) (f g : α → ℚ) :
    (l.map (fun c => f c - g c)).sum = (l.map f).sum - (l.map g).sum := by
  induction l with
  | nil => simp
  | cons a l ih => simp only [List.map_cons, List.sum_cons, ih]; ring

theorem list_sum_map_mul_right {α : Type} (l : List α) (f : α → ℚ) (k : ℚ) :
    (l.map (fun c => f c * k)).sum = (l.map f).sum * k := by
  induction l with
  | nil => simp
  | cons a l ih => simp only [List.map_cons, List.sum_cons, ih]; ring

theorem sum_range_getD (l : List ℚ) :
    ((List.range l.length).map (fun c => l.getD c 0)).sum = l.sum := by
  induction l with
  | nil => simp
  | cons a l ih =>
      rw [List.length_cons, List.range_succ_eq_map]
      simp only [List.map_cons, List.map_map, List.sum_cons,
        List.getD_cons_zero]
      have hc : (List.range l.length).map
          ((fun c => (a :: l).getD c 0) ∘ Nat.succ) =
          (List.range l.length).map (fun c => l.getD c 0) := by
        apply List.map_congr_left
        intro c _
        simp [Function.comp, List.getD_cons_succ]
      rw [hc, ih]

theorem map_range_getD (l : List ℚ) :
    (List.range l.length).map (fun c => l.getD c 0) = l := by
  induction l with
  | nil => simp
  | cons a l ih =>
      rw [List.length_cons, List.range_succ_eq_map]
      simp only [List.map_cons, List.map_map, List.getD_cons_zero]
      have hc : (List.range l.length).map
          ((fun c => (a :: l).getD c 0) ∘ Nat.succ) =
          (List.range l.length).map (fun c => l.getD c 0) := by
        apply List.map_congr_left
        intro c _
        simp [Function.comp, List.getD_cons_succ]
      rw [hc, ih]

/-! ## Last-element helpers -/

theorem getLastD_indep {α : Type} (l : List α) (a b : α) (hl : l ≠ []) :
    l.getLastD a = l.getLastD b := by
  cases l with
  | nil => exact absurd rfl hl
  | cons x xs =>
      simp only [List.getLastD_eq_getLast?]
      cases hgl : (x :: xs).getLast? with
      | none =>
          rw [List.getLast?_eq_none_iff] at hgl
          exact absurd hgl (List.cons_ne_nil x xs)
      | some v => rfl

theorem getLastD_map {α β : Type} (f : α → β) (l : List α) (hl : l ≠ [])
    (b : β) (a : α) : (l.map f).getLastD b = f (l.getLastD a) := by
  induction l generalizing a b with
  | nil => exact absurd rfl hl
  | cons x xs ih =>
      cases xs with
      | nil => rfl
      | cons y ys =>
          rw [List.map_cons, List.getLastD_cons, List.getLastD_cons]
          exact ih (List.cons_ne_nil y ys) (f x) x

theorem getLastD_mem {α : Type} (l : List α) (hl : l ≠ []) (d : α) :
    l.getLastD d ∈ l := by
  induction l generalizing d with
  | nil => exact absurd rfl hl
  | cons x xs ih =>
      cases xs with
      | nil => simp
      | cons y ys =>
          rw [List.getLastD_cons]
          exact List.mem_cons_of_mem x (ih (List.cons_ne_nil y ys) x)

/-! ## Clamping behaviour of `npInterp` -/

/-- Below (or at) the first grid point, `np.interp` returns the first curve
value. -/
theorem npInterp_of_le_head (x x0 : ℚ) (xs : List ℚ) (y0 : ℚ) (ys : List ℚ)
    (h : x ≤ x0) : npInterp x (x0 :: xs) (y0 :: ys) = y0 := by
  cases xs with
  | nil => rfl
  | cons x1 xs' =>
      cases ys with
      | nil => rfl
      | cons y1 ys' => simp [npInterp, h]

/-- Above every grid point, `np.interp` returns the last curve value
(extend-boundary clamp, never extrapolation). -/
theorem npInterp_of_forall_lt (x : ℚ) (xp : List ℚ) :
    ∀ (fp : List ℚ), fp.length = xp.length → xp ≠ [] →
      (∀ a ∈ xp, a < x) → npInterp x xp fp = fp.getLastD 0 := by
  induction xp with
  | nil => intro fp _ hne _; exact absurd rfl hne
  | cons x0 xs ih =>
      intro fp hlen _ hbig
      cases fp with
      | nil => simp at hlen
      | cons y0 fp' =>
          cases xs with
          | nil =>
              cases fp' with
              | nil => rfl
              | cons z zs => simp at hlen
          | cons x1 xs' =>
              cases fp' with
              | nil => simp at hlen
              | cons y1 ys =>
                  have hx0 : ¬ x ≤ x0 :=
                    not_le.mpr (hbig x0 (by simp))
                  have hx1 : ¬ x ≤ x1 :=
                    not_le.mpr (hbig x1 (by simp))
                  simp only [npInterp, hx0, hx1, if_false]
                  rw [ih (y1 :: ys) (by simpa using hlen)
                    (List.cons_ne_nil x1 xs')
                    (fun a ha => hbig a (List.mem_cons_of_mem x0 ha))]
                  conv_rhs => rw [List.getLastD_cons]
                  exact getLastD_indep (y1 :: ys) 0 y0
                    (List.cons_ne_nil y1 ys)

/-! ## Interpolation preserves row sums (convex/clamped combination) -/

/-- If every row of `rows` has length `m` and sums to 1, then for any
abscissa `x` the vector of per-column interpolations
`c ↦ np.interp x xp (column c of rows)` sums to 1: inside the grid it is a
convex combination of two adjacent rows, outside it is a boundary row. -/
theorem sum_npInterp_cols (x : ℚ) (m : ℕ) (xp : List ℚ) :
    ∀ (rows : List (List ℚ)), xp.length = rows.length → rows ≠ [] →
      (∀ r ∈ rows, r.length = m ∧ r.sum = 1) →
      ((List.range m).map
        (fun c => npInterp x xp
          (rows.map (fun row => row.getD c 0)))).sum = 1 := by
  induction xp with
  | nil =>
      intro rows hlen hne _
      cases rows with
      | nil => exact absurd rfl hne
      | cons r rs => simp at hlen
  | cons x0 xs ih =>
      intro rows hlen hne hrows
      cases rows with
      | nil => exact absurd rfl hne
      | cons r0 rs =>
          cases xs with
          | nil =>
              cases rs with
              | cons r1 rs' => simp at hlen
              | nil =>
                  have hr0 := hrows r0 (by simp)
                  simp only [List.map_cons, List.map_nil, npInterp]
                  rw [← hr0.1, sum_range_getD]
                  exact hr0.2
          | cons x1 xs' =>
              cases rs with
              | nil => simp at hlen
              | cons r1 rs' =>
                  have hr0 := hrows r0 (by simp)
                  have hr1 := hrows r1 (by simp)
                  have hs0 : ((List.range m).map
                      (fun c => r0.getD c 0)).sum = 1 := by
                    rw [← hr0.1, sum_range_getD]; exact hr0.2
                  have hs1 : ((List.range m).map
                      (fun c => r1.getD c 0)).sum = 1 := by
                    rw [← hr1.1, sum_range_getD]; exact hr1.2
                  by_cases hx0 : x ≤ x0
                  · simp only [List.map_cons, npInterp, hx0, if_true]
                    exact hs0
                  · by_cases hx1 : x ≤ x1
                    · simp only [List.map_cons, npInterp, hx0, hx1,
                        if_false, if_true]
                      simp only [mul_div_assoc]
                      rw [list_sum_map_add, list_sum_map_mul_right,
                        list_sum_map_sub, hs0, hs1]
                      ring
                    · simp only [List.map_cons, npInterp, hx0, hx1,
                        if_false]
                      have := ih (r1 :: rs') (by simpa using hlen)
                        (List.cons_ne_nil r1 rs')
                        (fun r hr => hrows r (List.mem_cons_of_mem r0 hr))
                      simpa [List.map_cons] using this

/-- Every probability vector produced by the observation-native per-object
remapping sums to 1 when the truncated model rows are distributions. -/
theorem obsNative_row_sums (passbands : List String) (lc : OrigLC)
    (grid : List ℚ) (y : List (List ℚ)) (h : ℕ) (trig : ℚ)
    (hh : 1 ≤ h) (hyne : y ≠ [])
    (hlen : y.length = grid.length)
    (hrows : ∀ r ∈ y.take h, r.length = CLASS_NAMES.length ∧ r.sum = 1) :
    ∀ v ∈ (obsNativeForObject passbands lc grid y h trig).1, v.sum = 1 := by
  intro v hv
  have htakene : y.take h ≠ [] := by
    intro heq
    rcases List.take_eq_nil_iff.mp heq with h1 | h1
    · omega
    · exact hyne h1
  simp only [obsNativeForObject, transposeRect] at hv
  rw [List.mem_map] at hv
  obtain ⟨t, ht, hveq⟩ := hv
  rw [List.mem_range] at ht
  subst hveq
  rw [List.map_map]
  have hmap : (List.range CLASS_NAMES.length).map
      ((fun a => a.getD t 0) ∘ fun c => (gatherObsTimes passbands lc).map
        (fun τ => npInterp τ (grid.take h)
          ((y.map (fun row => row.getD c 0)).take h))) =
      (List.range CLASS_NAMES.length).map
      (fun c => npInterp ((gatherObsTimes passbands lc).getD t 0)
        (grid.take h) ((y.take h).map (fun row => row.getD c 0))) := by
    apply List.map_congr_left
    intro c _
    simp only [Function.comp]
    rw [getD_map_of_lt _ _ t ht 0 0, List.map_take]
  rw [hmap]
  exact sum_npInterp_cols _ _ _ (y.take h)
    (by simp [List.length_take, hlen]) htakene hrows

/-- **C4**: if every model output row within the object's causal horizon is
a probability distribution (length `n_classes`, summing to 1), then every
probability vector reported by `get_predictions` for that object — every
grid-native row and every interpolated vector in observation-native mode —
sums to exactly 1 (truncation selects rows unchanged; interpolation at a
common abscissa is a convex combination of adjacent rows or a clamped
boundary row). -/
theorem C4_probability_sums (passbands : List String)
    (model : List (List (List ℚ)) → List (List (List ℚ)))
    (d : PreparedData) (i : ℕ)
    (hi : i < d.objids.length) (hs : i < (model d.X).length)
    (hlen : ((model d.X).getD i []).length = (d.timesX.getD i []).length)
    (hgne : d.timesX.getD i [] ≠ [])
    (hrows : ∀ r ∈ ((model d.X).getD i []).take
        (npArgmax (d.timesX.getD i []) + 1),
      r.length = CLASS_NAMES.length ∧ r.sum = 1) :
    (∃ yp ts, getPredictions passbands model d false = some (yp, ts) ∧
      ∀ v ∈ yp.getD i [], v.sum = 1) ∧
    (∃ yp ts, getPredictions passbands model d true = some (yp, ts) ∧
      ∀ v ∈ yp.getD i [], v.sum = 1) := by
  have hne' : ¬ d.objids.length = 0 := by omega
  have htl : i < d.timesX.length := by
    refine lt_length_of_getD_length_pos _ _ ?_
    cases hc : d.timesX.getD i [] with
    | nil => exact absurd hc hgne
    | cons a l => simp
  have hyne : (model d.X).getD i [] ≠ [] := by
    intro heq
    rw [heq] at hlen
    simp only [List.length_nil] at hlen
    exact hgne (List.length_eq_zero.mp hlen.symm)
  constructor
  · refine ⟨_, _, getPredictions_grid_eq passbands model d hne', ?_⟩
    intro v hv
    rw [getD_range_map _ _ _ _ hi, getD_map_of_lt _ _ _ htl [] 0] at hv
    exact (hrows v hv).2
  · refine ⟨_, _, getPredictions_obs_eq passbands model d hne', ?_⟩
    intro v hv
    rw [List.map_map, getD_range_map _ _ _ _ hs] at hv
    simp only [Function.comp] at hv
    rw [getD_map_of_lt _ _ _ htl [] 0] at hv
    exact obsNative_row_sums passbands (d.orig_lc.getD i [])
      (d.timesX.getD i []) ((model d.X).getD i [])
      (npArgmax (d.timesX.getD i []) + 1) (d.trigger_mjds.getD i 0)
      (by omega) hyne hlen hrows v hv

/-- A row of 13 class probabilities: 1 at position `k`, 0 elsewhere. -/
def unitRow (k : ℕ) : List ℚ :=
  (List.range 13).map (fun c => if c = k then 1 else 0)

/-- A one-object batch with an interior observation time (`1/2`, a strict
convex combination) and a beyond-span time (`9`, clamped). -/
def exDataC4 : PreparedData :=
  { X := [[[]]]
    orig_lc := [[("g", [some 0, some (1/2 : ℚ), none, some 9])]]
    timesX := [[0, 1, 2]]
    objids := [4]
    trigger_mjds := [0] }

/-- A model stub emitting three distinct valid distribution rows. -/
def exModelC4 : List (List (List ℚ)) → List (List (List ℚ)) :=
  fun _ => [[unitRow 0, unitRow 1, unitRow 3]]

/-- Witness for `C4_probability_sums` on `exDataC4` / `exModelC4`. -/
theorem C4_witness :
    (∃ yp ts, getPredictions ["g", "r"] exModelC4 exDataC4 false =
        some (yp, ts) ∧ ∀ v ∈ yp.getD 0 [], v.sum = 1) ∧
    (∃ yp ts, getPredictions ["g", "r"] exModelC4 exDataC4 true =
        some (yp, ts) ∧ ∀ v ∈ yp.getD 0 [], v.sum = 1) :=
  C4_probability_sums ["g", "r"] exModelC4 exDataC4 0 (by decide)
    (by decide) (by decide) (by decide)
    (by norm_num [exModelC4, exDataC4, unitRow, npArgmax, npArgmaxAux,
      CLASS_NAMES, List.range_succ])

/-! ## Out-of-span clamping and absence of a finiteness check (C5) -/

theorem headD_map {α β : Type} (f : α → β) (l : List α) (hl : l ≠ [])
    (b : β) (a : α) : (l.map f).headD b = f (l.headD a) := by
  cases l with
  | nil => exact absurd rfl hl
  | cons x xs => rfl

theorem headD_mem {α : Type} (l : List α) (hl : l ≠ []) (d : α) :
    l.headD d ∈ l := by
  cases l with
  | nil => exact absurd rfl hl
  | cons x xs => simp

/-- Below every grid point, `np.interp` returns the first curve value
(extend-boundary clamp, never extrapolation). -/
theorem npInterp_of_forall_gt (x : ℚ) (xp fp : List ℚ)
    (hxne : xp ≠ []) (hfne : fp ≠ []) (h : ∀ a ∈ xp, x < a) :
    npInterp x xp fp = fp.headD 0 := by
  cases xp with
  | nil => exact absurd rfl hxne
  | cons x0 xs =>
      cases fp with
      | nil => exact absurd rfl hfne
      | cons y0 ys =>
          rw [npInterp_of_le_head x x0 xs y0 ys (le_of_lt (h x0 (by simp)))]
          rfl

/-- The observation-native remapping of one object clamps below the span:
at an observation time smaller than every truncated grid point, the reported
probability vector is the first row of the truncated probability curve. -/
theorem obsNative_clamp_first (passbands : List String) (lc : OrigLC)
    (grid : List ℚ) (y : List (List ℚ)) (h : ℕ) (trig : ℚ) (j : ℕ)
    (hh : 1 ≤ h) (hyne : y ≠ []) (hlen : y.length = grid.length)
    (hj : j < (gatherObsTimes passbands lc).length)
    (hsmall : ∀ a ∈ grid.take h, (gatherObsTimes passbands lc).getD j 0 < a)
    (hfirst : ((y.take h).headD []).length = CLASS_NAMES.length) :
    ((obsNativeForObject passbands lc grid y h trig).1).getD j [] =
      (y.take h).headD [] := by
  have htakene : y.take h ≠ [] := by
    intro heq
    rcases List.take_eq_nil_iff.mp heq with h1 | h1
    · omega
    · exact hyne h1
  have hgridne : grid.take h ≠ [] := by
    intro heq
    rcases List.take_eq_nil_iff.mp heq with h1 | h1
    · omega
    · rw [h1] at hlen
      simp only [List.length_nil] at hlen
      exact hyne (List.length_eq_zero.mp hlen)
  simp only [obsNativeForObject, transposeRect]
  rw [getD_range_map _ _ _ _ hj, List.map_map]
  have hmap : (List.range CLASS_NAMES.length).map
      ((fun a => a.getD j 0) ∘ fun c => (gatherObsTimes passbands lc).map
        (fun τ => npInterp τ (grid.take h)
          ((y.map (fun row => row.getD c 0)).take h))) =
      (List.range CLASS_NAMES.length).map
        (fun c => ((y.take h).headD []).getD c 0) := by
    apply List.map_congr_left
    intro c _
    simp only [Function.comp]
    rw [getD_map_of_lt _ _ j hj 0 0, ← List.map_take]
    rw [npInterp_of_forall_gt _ _ _ hgridne
      (by intro hm; exact htakene (List.map_eq_nil_iff.mp hm)) hsmall]
    exact headD_map (fun row => row.getD c 0) (y.take h) htakene 0 []
  rw [hmap, ← hfirst, map_range_getD]

/-- The observation-native remapping of one object clamps: at an
observation time greater than every truncated grid point, the reported
probability vector is the last row of the truncated probability curve. -/
theorem obsNative_clamp_last (passbands : List String) (lc : OrigLC)
    (grid : List ℚ) (y : List (List ℚ)) (h : ℕ) (trig : ℚ) (j : ℕ)
    (hh : 1 ≤ h) (hyne : y ≠ []) (hlen : y.length = grid.length)
    (hj : j < (gatherObsTimes passbands lc).length)
    (hbig : ∀ a ∈ grid.take h, a < (gatherObsTimes passbands lc).getD j 0)
    (hlast : ((y.take h).getLastD []).length = CLASS_NAMES.length) :
    ((obsNativeForObject passbands lc grid y h trig).1).getD j [] =
      (y.take h).getLastD [] := by
  have htakene : y.take h ≠ [] := by
    intro heq
    rcases List.take_eq_nil_iff.mp heq with h1 | h1
    · omega
    · exact hyne h1
  have hgridne : grid.take h ≠ [] := by
    intro heq
    rcases List.take_eq_nil_iff.mp heq with h1 | h1
    · omega
    · rw [h1] at hlen
      simp only [List.length_nil] at hlen
      exact hyne (List.length_eq_zero.mp hlen)
  simp only [obsNativeForObject, transposeRect]
  rw [getD_range_map _ _ _ _ hj, List.map_map]
  have hmap : (List.range CLASS_NAMES.length).map
      ((fun a => a.getD j 0) ∘ fun c => (gatherObsTimes passbands lc).map
        (fun τ => npInterp τ (grid.take h)
          ((y.map (fun row => row.getD c 0)).take h))) =
      (List.range CLASS_NAMES.length).map
        (fun c => ((y.take h).getLastD []).getD c 0) := by
    apply List.map_congr_left
    intro c _
    simp only [Function.comp]
    rw [getD_map_of_lt _ _ j hj 0 0, ← List.map_take]
    rw [npInterp_of_forall_lt _ _ _ (by simp [List.length_take, hlen])
      hgridne hbig]
    exact getLastD_map (fun row => row.getD c 0) (y.take h) htakene 0 []
  rw [hmap, ← hlast, map_range_getD]

/-- **C5 (amended)**: for every observation time lying outside the span of
the truncated time grid — below every truncated grid point or above every
truncated grid point — `get_predictions` in observation-native mode does
not raise and reports the corresponding boundary value of the truncated
probability curve: the first truncated row below the span, the last
truncated row above it (clamp/extend policy, never extrapolation). -/
theorem C5_out_of_span_clamp (passbands : List String)
    (model : List (List (List ℚ)) → List (List (List ℚ)))
    (d : PreparedData) (i j : ℕ)
    (hi : i < d.objids.length) (hs : i < (model d.X).length)
    (hlen : ((model d.X).getD i []).length = (d.timesX.getD i []).length)
    (hgne : d.timesX.getD i [] ≠ [])
    (hj : j < (gatherObsTimes passbands (d.orig_lc.getD i [])).length)
    (hrowlen : ∀ r ∈ ((model d.X).getD i []).take
        (npArgmax (d.timesX.getD i []) + 1),
      r.length = CLASS_NAMES.length) :
    ∃ yp ts, getPredictions passbands model d true = some (yp, ts) ∧
      ((∀ a ∈ (d.timesX.getD i []).take (npArgmax (d.timesX.getD i []) + 1),
          (gatherObsTimes passbands (d.orig_lc.getD i [])).getD j 0 < a) →
        (yp.getD i []).getD j [] =
          (((model d.X).getD i []).take
            (npArgmax (d.timesX.getD i []) + 1)).headD []) ∧
      ((∀ a ∈ (d.timesX.getD i []).take (npArgmax (d.timesX.getD i []) + 1),
          a < (gatherObsTimes passbands (d.orig_lc.getD i [])).getD j 0) →
        (yp.getD i []).getD j [] =
          (((model d.X).getD i []).take
            (npArgmax (d.timesX.getD i []) + 1)).getLastD []) := by
  have hne' : ¬ d.objids.length = 0 := by omega
  have htl : i < d.timesX.length := by
    refine lt_length_of_getD_length_pos _ _ ?_
    cases hc : d.timesX.getD i [] with
    | nil => exact absurd hc hgne
    | cons a l => simp
  have hyne : (model d.X).getD i [] ≠ [] := by
    intro heq
    rw [heq] at hlen
    simp only [List.length_nil] at hlen
    exact hgne (List.length_eq_zero.mp hlen.symm)
  have htakene : ((model d.X).getD i []).take
      (npArgmax (d.timesX.getD i []) + 1) ≠ [] := by
    intro heq
    rcases List.take_eq_nil_iff.mp heq with h1 | h1
    · omega
    · exact hyne h1
  have hfirst := hrowlen _ (headD_mem _ htakene [])
  have hlast := hrowlen _ (getLastD_mem _ htakene [])
  refine ⟨_, _, getPredictions_obs_eq passbands model d hne', ?_, ?_⟩
  · intro hsmall
    rw [List.map_map, getD_range_map _ _ _ _ hs]
    simp only [Function.comp]
    rw [getD_map_of_lt _ _ _ htl [] 0]
    exact obsNative_clamp_first passbands (d.orig_lc.getD i [])
      (d.timesX.getD i []) ((model d.X).getD i [])
      (npArgmax (d.timesX.getD i []) + 1) (d.trigger_mjds.getD i 0) j
      (by omega) hyne hlen hj hsmall hfirst
  · intro hbig
    rw [List.map_map, getD_range_map _ _ _ _ hs]
    simp only [Function.comp]
    rw [getD_map_of_lt _ _ _ htl [] 0]
    exact obsNative_clamp_last passbands (d.orig_lc.getD i [])
      (d.timesX.getD i []) ((model d.X).getD i [])
      (npArgmax (d.timesX.getD i []) + 1) (d.trigger_mjds.getD i 0) j
      (by omega) hyne hlen hj hbig hlast

/-- A one-object prepared batch whose observation times include a duplicate
(`1` in both passbands) and a time (`5`) beyond the last real grid point. -/
def exDataC3 : PreparedData :=
  { X := [[[]]]
    orig_lc := [[("g", [some 0, some 1]), ("r", [some 1, some 5])]]
    timesX := [[0, 1, 2]]
    objids := [3]
    trigger_mjds := [10] }

/-- A model stub emitting three distinct distribution rows for `exDataC3`'s
three grid points. -/
def exModelC3 : List (List (List ℚ)) → List (List (List ℚ)) :=
  fun _ => [[unitRow 0, unitRow 1, unitRow 2]]

/-- A one-object prepared batch with observation times on both sides of the
truncated grid span `[0, 2]`: `-7` below it and `5` above it. -/
def exDataC5 : PreparedData :=
  { X := [[[]]]
    orig_lc := [[("g", [some (-7), some 0]), ("r", [some 1, some 5])]]
    timesX := [[0, 1, 2]]
    objids := [5]
    trigger_mjds := [0] }

/-- Witness for `C5_out_of_span_clamp` at both boundaries of `exDataC5`: the
sorted observation times are `[-7, 0, 1, 5]`; index 0 (`-7`) lies below
every truncated grid point `0, 1, 2` and index 3 (`5`) above every one. -/
theorem C5_witness :
    (∃ yp ts, getPredictions ["g", "r"] exModelC3 exDataC5 true =
        some (yp, ts) ∧
      ((∀ a ∈ (exDataC5.timesX.getD 0 []).take
          (npArgmax (exDataC5.timesX.getD 0 []) + 1),
          (gatherObsTimes ["g", "r"] (exDataC5.orig_lc.getD 0 [])).getD 0 0
            < a) →
        (yp.getD 0 []).getD 0 [] =
          (((exModelC3 exDataC5.X).getD 0 []).take
            (npArgmax (exDataC5.timesX.getD 0 []) + 1)).headD []) ∧
      ((∀ a ∈ (exDataC5.timesX.getD 0 []).take
          (npArgmax (exDataC5.timesX.getD 0 []) + 1),
          a < (gatherObsTimes ["g", "r"]
            (exDataC5.orig_lc.getD 0 [])).getD 0 0) →
        (yp.getD 0 []).getD 0 [] =
          (((exModelC3 exDataC5.X).getD 0 []).take
            (npArgmax (exDataC5.timesX.getD 0 []) + 1)).getLastD [])) ∧
    (∃ yp ts, getPredictions ["g", "r"] exModelC3 exDataC5 true =
        some (yp, ts) ∧
      ((∀ a ∈ (exDataC5.timesX.getD 0 []).take
          (npArgmax (exDataC5.timesX.getD 0 []) + 1),
          (gatherObsTimes ["g", "r"] (exDataC5.orig_lc.getD 0 [])).getD 3 0
            < a) →
        (yp.getD 0 []).getD 3 [] =
          (((exModelC3 exDataC5.X).getD 0 []).take
            (npArgmax (exDataC5.timesX.getD 0 []) + 1)).headD []) ∧
      ((∀ a ∈ (exDataC5.timesX.getD 0 []).take
          (npArgmax (exDataC5.timesX.getD 0 []) + 1),
          a < (gatherObsTimes ["g", "r"]
            (exDataC5.orig_lc.getD 0 [])).getD 3 0) →
        (yp.getD 0 []).getD 3 [] =
          (((exModelC3 exDataC5.X).getD 0 []).take
            (npArgmax (exDataC5.timesX.getD 0 []) + 1)).getLastD [])) :=
  ⟨C5_out_of_span_clamp ["g", "r"] exModelC3 exDataC5 0 0 (by decide)
      (by decide) (by decide) (by decide) (by decide) (by decide),
    C5_out_of_span_clamp ["g", "r"] exModelC3 exDataC5 0 3 (by decide)
      (by decide) (by decide) (by decide) (by decide) (by decide)⟩

/-- Possibly-NaN float value: `none` models IEEE NaN (or any other
non-finite value); `some q` a finite value. -/
abbrev Flt := Option ℚ

/-- Binary float arithmetic with NaN propagation. -/
def fltBin (f : ℚ → ℚ → ℚ) : Flt → Flt → Flt
  | some a, some b => some (f a b)
  | _, _ => none

/-- Float division: NaN propagates and division by zero is non-finite. -/
def fltDiv : Flt → Flt → Flt
  | some a, some b => if b = 0 then none else some (a / b)
  | _, _ => none

/-- `np.interp` over possibly-NaN curve values: NaN in the selected curve
entries propagates to the output (numpy performs no finiteness check). -/
def npInterpF (x : ℚ) : List ℚ → List Flt → Flt
  | [], _ => some 0
  | _, [] => some 0
  | [_], y0 :: _ => y0
  | _ :: _ :: _, [y0] => y0
  | x0 :: x1 :: xs, y0 :: y1 :: ys =>
      if x ≤ x0 then y0
      else if x ≤ x1 then
        fltBin (· + ·) y0
          (fltDiv (fltBin (· * ·) (fltBin (· - ·) y1 y0) (some (x - x0)))
            (some (x1 - x0)))
      else npInterpF x (x1 :: xs) (y1 :: ys)

/-- `np.array(rows).T` over possibly-NaN entries. -/
def transposeRectF (rows : List (List Flt)) (n : ℕ) : List (List Flt) :=
  (List.range n).map (fun t => rows.map (fun a => a.getD t (some 0)))

/-- Lines 148–158 of `classify.py` over possibly-NaN model outputs:
identical to `obsNativeForObject` except that curve values may be NaN.  The
function is total and checks nothing about its output, mirroring the absence
of any finiteness assertion in the source. -/
def obsNativeForObjectF (passbands : List String) (lc : OrigLC)
    (grid : List ℚ) (y : List (List Flt)) (h : ℕ) (trig : ℚ) :
    List (List Flt) × List ℚ :=
  let obs_time := gatherObsTimes passbands lc
  let xp := grid.take h
  let arrs := (List.range CLASS_NAMES.length).map
    (fun c => obs_time.map
      (fun t => npInterpF t xp
        ((y.map (fun row => row.getD c (some 0))).take h)))
  (transposeRectF arrs obs_time.length, obs_time.map (fun t => t + trig))

/-- **C5 (counterexample to the assertion part)**: the remapper performs no
finiteness assertion: with a NaN in the model output's clamped boundary row,
the observation-native remapping returns normally and its returned value
contains a non-finite entry. -/
theorem C5_counterexample :
    (obsNativeForObjectF ["g"] [("g", [some (-5)])] [0, 1]
        [List.replicate 13 (none : Flt), List.replicate 13 (some 0)]
        2 0).1 =
      [List.replicate 13 (none : Flt)] ∧
    (List.replicate 13 (none : Flt)).all (fun p => p.isSome) = false := by
  exact ⟨by decide, by decide⟩

/-! ## Observation-native gathering: what C3 claims vs what the code does -/

/-- Modelled from the spec: the observation-native time axis exactly as
claim C3 words it — observation times gathered across all configured
filters, deduplicated, sorted, NaN-filtered, keeping only those within the
causal horizon (at or before the last truncated grid time), then shifted to
absolute MJD by the trigger epoch. -/
def specObsTimeAxisC3 (passbands : List String) (lc : OrigLC)
    (grid : List ℚ) (h : ℕ) (trig : ℚ) : List ℚ :=
  let times :=
    ((passbands.filterMap (fun pb => lc.lookup pb)).flatten).filterMap id
  let sorted := List.insertionSort (· ≤ ·) times.dedup
  (sorted.filter (fun t => decide (t ≤ (grid.take h).getLastD 0))).map
    (fun t => t + trig)

/-- **C3 (counterexample)**: on `exDataC3` the time axis actually returned
by `get_predictions` keeps the duplicated observation time `1` (twice) and
the beyond-horizon time `5`, whereas the claimed
deduplicate-and-keep-within-horizon axis would be `[10, 11]`. -/
theorem C3_counterexample :
    (getPredictions ["g", "r"] exModelC3 exDataC3 true).map
        (fun p => p.2.getD 0 []) = some [10, 11, 11, 15] ∧
    specObsTimeAxisC3 ["g", "r"] (exDataC3.orig_lc.getD 0 [])
        (exDataC3.timesX.getD 0 [])
        (npArgmax (exDataC3.timesX.getD 0 []) + 1)
        (exDataC3.trigger_mjds.getD 0 0) = [10, 11] ∧
    ([10, 11, 11, 15] : List ℚ) ≠ [10, 11] := by
  refine ⟨?_, ?_, by simp⟩
  · norm_num [getPredictions, obsNativeForObject, gatherObsTimes, npSort,
      npArgmax, npArgmaxAux, exDataC3, exModelC3, List.insertionSort,
      List.orderedInsert, CLASS_NAMES]
  · norm_num [specObsTimeAxisC3, exDataC3, npArgmax, npArgmaxAux,
      List.insertionSort, List.orderedInsert, List.dedup]

/-- **C3 (amended)**: in observation-native mode, for every surviving
object, `get_predictions` gathers the observation times of the passbands
present in the object's light curve, concatenates them keeping duplicates
(no deduplication), drops NaNs, sorts them, and reports one probability
vector per retained time — including times outside the truncated grid span,
which are not filtered out (they receive clamped boundary values); the time
axis is the sorted list shifted by the trigger epoch. -/
theorem C3_amended_obs_native (passbands : List String)
    (model : List (List (List ℚ)) → List (List (List ℚ)))
    (d : PreparedData) (i : ℕ)
    (hi : i < d.objids.length) (hs : i < (model d.X).length) :
    ∃ yp ts, getPredictions passbands model d true = some (yp, ts) ∧
      List.Perm (ts.getD i [])
        ((((passbands.filterMap
              (fun pb => (d.orig_lc.getD i []).lookup pb)).flatten).filterMap
            id).map (fun t => t + d.trigger_mjds.getD i 0)) ∧
      List.Sorted (· ≤ ·) (ts.getD i []) ∧
      (yp.getD i []).length = (ts.getD i []).length := by
  have hne' : ¬ d.objids.length = 0 := by omega
  refine ⟨_, _, getPredictions_obs_eq passbands model d hne', ?_, ?_, ?_⟩
  · rw [List.map_map, getD_range_map _ _ _ _ hs]
    simp only [Function.comp, obsNativeForObject, gatherObsTimes, npSort]
    exact List.Perm.map _ (List.perm_insertionSort _ _)
  · rw [List.map_map, getD_range_map _ _ _ _ hs]
    simp only [Function.comp, obsNativeForObject, gatherObsTimes, npSort]
    exact List.Pairwise.map _ (fun a b hab => add_le_add_right hab _)
      (List.sorted_insertionSort _ _)
  · rw [List.map_map, List.map_map, getD_range_map _ _ _ _ hs,
      getD_range_map _ _ _ _ hs]
    simp [obsNativeForObject, transposeRect]

/-- Witness for `C3_amended_obs_native` on `exDataC3`. -/
theorem C3_amended_witness :
    ∃ yp ts, getPredictions ["g", "r"] exModelC3 exDataC3 true =
        some (yp, ts) ∧
      List.Perm (ts.getD 0 [])
        ((((["g", "r"].filterMap
              (fun pb => (exDataC3.orig_lc.getD 0 []).lookup pb)).flatten).filterMap
            id).map (fun t => t + exDataC3.trigger_mjds.getD 0 0)) ∧
      List.Sorted (· ≤ ·) (ts.getD 0 []) ∧
      (yp.getD 0 []).length = (ts.getD 0 []).length :=
  C3_amended_obs_native ["g", "r"] exModelC3 exDataC3 0 (by decide)
    (by decide)

end Astrorapid
